import Mathlib

/-!
Shallow embedding of `custom_components/ventoexpertv2/sensor.py`: the protocol
codec (`calc_checksum`, `build_read_packet`, `parse_ventoexpert_response`), the
retry orchestrator (`udp_request`) and the coordinator update step
(`_async_update_data`).  Byte strings are modelled as `List Nat` whose entries
are the byte values; Python `bytes` elements always satisfy `b < 256`, and the
theorems that need this carry it as a hypothesis.
-/

/-- Value decoded for one parameter: an unsigned integer (the 1- and 2-byte
cases) or the 3-byte tuple used by the filter-timer parameter `0x64`. -/
inductive PVal where
  | int : Nat → PVal
  | tup : Nat → Nat → Nat → PVal
deriving DecidableEq, Repr

/-- Python `bytes.ljust n fill`: pad on the right up to length `n` with `fill`;
an input of length at least `n` is returned unchanged (no truncation). -/
def ljust (bs : List Nat) (n : Nat) (fill : Nat) : List Nat :=
  bs ++ List.replicate (n - bs.length) fill

/-- Translation of `calc_checksum`: `checksum = sum(packet) & 0xFFFF` followed by
`bytes([checksum & 0xFF, (checksum >> 8) & 0xFF])`, little-endian. -/
def calc_checksum (packet : List Nat) : List Nat :=
  let checksum := packet.sum &&& 0xFFFF
  [checksum &&& 0xFF, (checksum >>> 8) &&& 0xFF]

/-- Translation of the `for param in params` loop of `build_read_packet`: the
accumulating `data_block += ...` statements become a left fold. -/
def data_block (params : List Nat) : List Nat :=
  params.foldl
    (fun acc param =>
      let high := (param >>> 8) &&& 0xFF
      let low := param &&& 0xFF
      acc ++ (if high > 0 then [0xFF, high] else []) ++ [low])
    []

/-- Translation of `build_read_packet`.  `device_id` and `password` stand for
the ASCII byte encodings of the Python string arguments. -/
def build_read_packet (device_id : List Nat) (password : List Nat)
    (params : List Nat) : List Nat :=
  let start := [0xFD, 0xFD]
  let type_byte := [0x02]
  let size_id := [0x10]
  let id_bytes := ljust device_id 16 0x00
  let size_pwd := [0x04]
  let pwd_bytes := ljust password 4 0x00
  let func := [0x01]
  let body := type_byte ++ size_id ++ id_bytes ++ size_pwd ++ pwd_bytes ++ func
      ++ data_block params
  start ++ body ++ calc_checksum body

/-- Python dict assignment `result[param] = value` on an insertion-ordered
association list: replace the value of an existing key in place, otherwise
append the new pair at the end. -/
def dinsert : List (Nat × PVal) → Nat → PVal → List (Nat × PVal)
  | [], k, v => [(k, v)]
  | kv :: rest, k, v =>
    if kv.1 = k then (k, v) :: rest else kv :: dinsert rest k v

/-- Python dict lookup `result[param]` as an option. -/
def dget : List (Nat × PVal) → Nat → Option PVal
  | [], _ => none
  | kv :: rest, k => if kv.1 = k then some kv.2 else dget rest k

/-- Translation of the `while pos < len(data) - 2` loop of
`parse_ventoexpert_response`, with `pos` the running index into `data`.  The
extra `fuel` argument only makes the recursion structural; it bounds the number
of iterations and is never the reason the loop stops when the caller passes
`data.length`, because every iteration advances `pos` by at least 2 and the
loop exits once `pos ≥ data.length - 2` (see `parse_loop_fuel_stable`). -/
def parse_loop (data : List Nat) : Nat → Nat → List (Nat × PVal) → List (Nat × PVal)
  | 0, _, result => result
  | fuel + 1, pos, result =>
    if pos < data.length - 2 then
      let param := data.getD pos 0
      if param = 0x64 then
        if pos + 1 + 3 > data.length then result
        else
          parse_loop data fuel (pos + 1 + 3)
            (dinsert result param
              (PVal.tup (data.getD (pos + 1) 0) (data.getD (pos + 2) 0)
                (data.getD (pos + 3) 0)))
      else if param = 0x4A ∨ param = 0x4B then
        if pos + 1 + 2 > data.length then result
        else
          parse_loop data fuel (pos + 1 + 2)
            (dinsert result param
              (PVal.int (data.getD (pos + 1) 0 ||| (data.getD (pos + 2) 0 <<< 8))))
      else
        if pos + 1 ≥ data.length then result
        else
          parse_loop data fuel (pos + 1 + 1)
            (dinsert result param (PVal.int (data.getD (pos + 1) 0)))
    else result

/-- Translation of `parse_ventoexpert_response`: guard on empty/short input,
locate the first `0x06` byte (Python `data.index(0x06)`, whose `ValueError` on
a missing marker is caught and mapped to the empty dict), then run the
sequential parameter loop starting right after the marker. -/
def parse_ventoexpert_response (data : List Nat) : List (Nat × PVal) :=
  if data = [] ∨ data.length < 20 then []
  else
    match data.findIdx? (fun b => b = 0x06) with
    | none => []
    | some func_index => parse_loop data data.length (func_index + 1) []

/-- Translation of the `for attempt in range(retries)` loop of `udp_request`.
The transport (`_send_udp`, whose timeout and socket errors are both mapped to
the empty byte string) is abstracted as a function from the attempt index to
the received bytes.  The result records the returned bytes, the number of
transport attempts made and the number of `asyncio.sleep(0.5)` backoff delays
performed. -/
def udp_loop (transport : Nat → List Nat) : List Nat → List Nat × Nat × Nat
  | [] => ([], 0, 0)
  | attempt :: rest =>
    let data := transport attempt
    if data ≠ [] then (data, 1, 0)
    else
      let r := udp_loop transport rest
      (r.1, r.2.1 + 1, r.2.2 + 1)

/-- Translation of `udp_request` over the abstracted transport: run the retry
loop over the attempt indices `range retries`; after the loop, the empty byte
string is returned.  The default in the source is `retries = 3`. -/
def udp_request (transport : Nat → List Nat) (retries : Nat) :
    List Nat × Nat × Nat :=
  udp_loop transport (List.range retries)

/-- Translation of `VentoExpertCoordinator._async_update_data`: raising
`UpdateFailed` becomes `Except.error`; otherwise the parsed mapping — whatever
it is, including the empty one — is returned as a successful update. -/
def async_update_data (raw : List Nat) : Except (List Nat) (List (Nat × PVal)) :=
  if raw = [] then Except.error []
  else Except.ok (parse_ventoexpert_response raw)

/-- Modelled from the spec: the host DataUpdateCoordinator reaction to one
update cycle, which is not part of this repository.  Per the spec, a failed
cycle (the update method raises) leaves the prior snapshot unchanged and does
not notify subscribers with new data, while a successful cycle publishes the
returned mapping as the new snapshot and notifies subscribers.  The boolean
records whether subscribers were notified with new data. -/
def coordinator_cycle (prev : List (Nat × PVal)) (raw : List Nat) :
    List (Nat × PVal) × Bool :=
  match async_update_data raw with
  | Except.ok parsed => (parsed, true)
  | Except.error _ => (prev, false)

/-- Instrumented copy of `parse_loop` that additionally records, in order, the
positions read as parameter ids and the positions read as value bytes.  Its
first component agrees with `parse_loop` (see the C8 theorem). -/
def parse_loop_tr (data : List Nat) : Nat → Nat → List (Nat × PVal) →
    List (Nat × PVal) × List Nat × List Nat
  | 0, _, result => (result, [], [])
  | fuel + 1, pos, result =>
    if pos < data.length - 2 then
      let param := data.getD pos 0
      if param = 0x64 then
        if pos + 1 + 3 > data.length then (result, [pos], [])
        else
          let r := parse_loop_tr data fuel (pos + 1 + 3)
            (dinsert result param
              (PVal.tup (data.getD (pos + 1) 0) (data.getD (pos + 2) 0)
                (data.getD (pos + 3) 0)))
          (r.1, pos :: r.2.1, (pos + 1) :: (pos + 2) :: (pos + 3) :: r.2.2)
      else if param = 0x4A ∨ param = 0x4B then
        if pos + 1 + 2 > data.length then (result, [pos], [])
        else
          let r := parse_loop_tr data fuel (pos + 1 + 2)
            (dinsert result param
              (PVal.int (data.getD (pos + 1) 0 ||| (data.getD (pos + 2) 0 <<< 8))))
          (r.1, pos :: r.2.1, (pos + 1) :: (pos + 2) :: r.2.2)
      else
        if pos + 1 ≥ data.length then (result, [pos], [])
        else
          let r := parse_loop_tr data fuel (pos + 1 + 1)
            (dinsert result param (PVal.int (data.getD (pos + 1) 0)))
          (r.1, pos :: r.2.1, (pos + 1) :: r.2.2)
    else (result, [], [])

/-- Shape invariant of one decoded entry: byte-sized key, and the value form
and range dictated by the key (tuple of bytes for `0x64`, 16-bit integer for
`0x4A`/`0x4B`, byte integer otherwise). -/
def well_shaped (kv : Nat × PVal) : Prop :=
  kv.1 < 256 ∧
  (kv.1 = 0x64 → ∃ a b c : Nat, kv.2 = PVal.tup a b c ∧ a < 256 ∧ b < 256 ∧ c < 256) ∧
  ((kv.1 = 0x4A ∨ kv.1 = 0x4B) → ∃ n : Nat, kv.2 = PVal.int n ∧ n < 65536) ∧
  (kv.1 ≠ 0x64 → kv.1 ≠ 0x4A → kv.1 ≠ 0x4B → ∃ n : Nat, kv.2 = PVal.int n ∧ n < 256)

lemma nat_and_ff (x : Nat) : x &&& 0xFF = x % 256 := by
  have h := Nat.and_pow_two_sub_one_eq_mod x 8
  norm_num at h
  exact h

lemma nat_and_ffff (x : Nat) : x &&& 0xFFFF = x % 65536 := by
  have h := Nat.and_pow_two_sub_one_eq_mod x 16
  norm_num at h
  exact h

lemma nat_shiftRight8 (x : Nat) : x >>> 8 = x / 256 := by
  have h := Nat.shiftRight_eq_div_pow x 8
  norm_num at h
  exact h

lemma byte_lor (a b : Nat) (ha : a < 256) : a ||| b <<< 8 = a + 256 * b := by
  have ha2 : ∀ i : Nat, 8 ≤ i → a.testBit i = false := by
    intro i hi
    apply Nat.testBit_lt_two_pow
    calc a < 256 := ha
      _ = 2 ^ 8 := by norm_num
      _ ≤ 2 ^ i := Nat.pow_le_pow_right (by norm_num) hi
  have hmod : (a ||| b <<< 8) % 256 = a := by
    have h256 : (256 : Nat) = 2 ^ 8 := by norm_num
    rw [h256]
    apply Nat.eq_of_testBit_eq
    intro i
    rw [Nat.testBit_mod_two_pow, Nat.testBit_lor, Nat.testBit_shiftLeft]
    by_cases hi : i < 8
    · have h8 : ¬ 8 ≤ i := by omega
      simp [hi, h8]
    · simp [hi, ha2 i (by omega)]
  have hdiv : (a ||| b <<< 8) / 256 = b := by
    have h : (a ||| b <<< 8) >>> 8 = b := by
      apply Nat.eq_of_testBit_eq
      intro i
      rw [Nat.testBit_shiftRight, Nat.testBit_lor, Nat.testBit_shiftLeft]
      have h8 : 8 ≤ 8 + i := by omega
      simp [ha2 (8 + i) h8, h8, Nat.add_sub_cancel_left]
    rw [Nat.shiftRight_eq_div_pow] at h
    norm_num at h
    exact h
  omega

lemma getD_lt_256 {data : List Nat} (hb : ∀ b ∈ data, b < 256) (i : Nat) :
    data.getD i 0 < 256 := by
  by_cases hi : i < data.length
  · rw [List.getD_eq_getElem _ _ hi]
    exact hb _ (List.getElem_mem hi)
  · rw [List.getD_eq_default _ _ (by omega)]
    norm_num

lemma dget_dinsert (m : List (Nat × PVal)) (k : Nat) (v : PVal) :
    dget (dinsert m k v) k = some v := by
  induction m with
  | nil => simp [dinsert, dget]
  | cons kv rest ih =>
    by_cases h : kv.1 = k
    · simp [dinsert, h, dget]
    · simp [dinsert, h, dget, ih]

lemma dinsert_forall {P : Nat × PVal → Prop} (k : Nat) (v : PVal) (hkv : P (k, v)) :
    ∀ m : List (Nat × PVal), (∀ kv ∈ m, P kv) → ∀ kv ∈ dinsert m k v, P kv := by
  intro m
  induction m with
  | nil =>
    intro _ kv hkv2
    simp [dinsert] at hkv2
    rw [hkv2]
    exact hkv
  | cons a rest ih =>
    intro hm kv hkv2
    by_cases h : a.1 = k
    · simp [dinsert, h] at hkv2
      rcases hkv2 with h1 | h1
      · rw [h1]; exact hkv
      · exact hm kv (List.mem_cons_of_mem _ h1)
    · simp [dinsert, h] at hkv2
      rcases hkv2 with h1 | h1
      · rw [h1]; exact hm a (List.mem_cons_self _ _)
      · exact ih (fun x hx => hm x (List.mem_cons_of_mem _ hx)) kv h1

lemma parse_loop_fuel_stable (data : List Nat) :
    ∀ fuel₁ fuel₂ pos acc, data.length - pos ≤ fuel₁ → data.length - pos ≤ fuel₂ →
      parse_loop data fuel₁ pos acc = parse_loop data fuel₂ pos acc := by
  intro fuel₁
  induction fuel₁ with
  | zero =>
    intro fuel₂ pos acc h1 h2
    cases fuel₂ with
    | zero => rfl
    | succ f2 =>
      have hnc : ¬ pos < data.length - 2 := by omega
      simp [parse_loop, hnc]
  | succ f1 ih =>
    intro fuel₂ pos acc h1 h2
    cases fuel₂ with
    | zero =>
      have hnc : ¬ pos < data.length - 2 := by omega
      simp [parse_loop, hnc]
    | succ f2 =>
      simp only [parse_loop]
      split_ifs with hc h64 hb3 h4AB hb2 hb1
      · rfl
      · exact ih f2 _ _ (by omega) (by omega)
      · rfl
      · exact ih f2 _ _ (by omega) (by omega)
      · rfl
      · exact ih f2 _ _ (by omega) (by omega)
      · rfl

lemma data_block_aux (params : List Nat) : ∀ acc : List Nat,
    params.foldl
      (fun acc param =>
        let high := (param >>> 8) &&& 0xFF
        let low := param &&& 0xFF
        acc ++ (if high > 0 then [0xFF, high] else []) ++ [low])
      acc
    = acc ++ params.flatMap (fun param =>
        if (param >>> 8) &&& 0xFF > 0
        then [0xFF, (param >>> 8) &&& 0xFF, param &&& 0xFF]
        else [param &&& 0xFF]) := by
  induction params with
  | nil => intro acc; simp
  | cons p ps ih =>
    intro acc
    simp only [List.foldl_cons]
    rw [ih]
    by_cases h : (p >>> 8) &&& 0xFF > 0
    · simp [h, List.flatMap_cons]
    · simp [h, List.flatMap_cons]

lemma udp_loop_all_empty (transport : Nat → List Nat) :
    ∀ l : List Nat, (∀ a ∈ l, transport a = []) →
      udp_loop transport l = ([], l.length, l.length) := by
  intro l
  induction l with
  | nil => intro _; rfl
  | cons a rest ih =>
    intro h
    have ha : transport a = [] := h a (List.mem_cons_self _ _)
    simp [udp_loop, ha, ih (fun x hx => h x (List.mem_cons_of_mem _ hx))]

lemma udp_loop_first_success (transport : Nat → List Nat) :
    ∀ (l1 : List Nat) (a : Nat) (l2 : List Nat), (∀ j ∈ l1, transport j = []) →
      transport a ≠ [] →
      udp_loop transport (l1 ++ a :: l2) = (transport a, l1.length + 1, l1.length) := by
  intro l1
  induction l1 with
  | nil =>
    intro a l2 _ ha
    simp [udp_loop, ha]
  | cons b rest ih =>
    intro a l2 h ha
    have hb : transport b = [] := h b (List.mem_cons_self _ _)
    simp [udp_loop, hb, ih a l2 (fun x hx => h x (List.mem_cons_of_mem _ hx)) ha]

/-- C5: for every input byte sequence that is empty, shorter than 20 bytes, or
contains no 0x06 byte, parse_ventoexpert_response returns an empty mapping (and,
being a total function, raises nothing). -/
theorem c5_parse_soft_fail (data : List Nat)
    (h : data = [] ∨ data.length < 20 ∨ 0x06 ∉ data) :
    parse_ventoexpert_response data = [] := by
  unfold parse_ventoexpert_response
  by_cases hshort : data = [] ∨ data.length < 20
  · rw [if_pos hshort]
  · rw [if_neg hshort]
    have hnot : 0x06 ∉ data := by
      rcases h with h | h | h
      · exact absurd (Or.inl h) hshort
      · exact absurd (Or.inr h) hshort
      · exact h
    have hfind : data.findIdx? (fun b => b = 0x06) = none := by
      rw [List.findIdx?_eq_none_iff]
      intro x hx
      simp only [decide_eq_false_iff_not]
      intro hx6
      exact hnot (hx6 ▸ hx)
    rw [hfind]

/-- Witness for C5 at a concrete 25-byte input with no 0x06 byte. -/
theorem c5_witness : parse_ventoexpert_response (List.replicate 25 7) = [] :=
  c5_parse_soft_fail _ (Or.inr (Or.inr (by decide)))

/-- C6: build_read_packet emits, for each parameter in list order, the escape
byte 0xFF followed by the high byte and then the low byte when the high byte is
non-zero, and the low byte alone otherwise. -/
theorem c6_param_block_encoding (params : List Nat) :
    data_block params = params.flatMap (fun param =>
      if (param >>> 8) &&& 0xFF > 0
      then [0xFF, (param >>> 8) &&& 0xFF, param &&& 0xFF]
      else [param &&& 0xFF]) := by
  rw [data_block, data_block_aux params []]
  simp

/-- C7: within one frame a duplicate parameter id is never merged; the later
occurrence silently overwrites the earlier one.  The first conjunct is the
dict-assignment semantics (the inserted value is what a later lookup of that
key returns, whatever the map held before); the other two evaluate a concrete
frame in which id 0x19 appears with value 5 and later with value 9. -/
theorem c7_last_write_wins :
    (∀ (m : List (Nat × PVal)) (k : Nat) (v : PVal), dget (dinsert m k v) k = some v)
    ∧ dget (parse_ventoexpert_response
        [0x06, 0x19, 5, 0x19, 9, 1, 0, 2, 0, 3, 0, 4, 0, 5, 0, 7, 0, 8, 0, 0, 0]) 0x19
        = some (PVal.int 9)
    ∧ dget (parse_ventoexpert_response
        [0x06, 0x19, 5, 0x19, 9, 1, 0, 2, 0, 3, 0, 4, 0, 5, 0, 7, 0, 8, 0, 0, 0]) 0x19
        ≠ some (PVal.int 5) :=
  ⟨dget_dinsert, by decide, by decide⟩

/-- C3 is refuted on the code: with the always-empty transport and the default
3 retries, the orchestrator performs 3 backoff delays, not 3 - 1 = 2, because
the source sleeps after every failed attempt, including the last one. -/
theorem c3_counterexample :
    (udp_request (fun _ => []) 3).2.2 = 3
    ∧ (udp_request (fun _ => []) 3).2.2 ≠ 3 - 1 := by decide

/-- C3 (amended): a non-empty transport result on attempt k (the first one) is
returned immediately after k + 1 attempts and k backoff delays, with no further
attempts; if every attempt yields no data, exactly `retries` attempts and
`retries` backoff delays (one after each failed attempt, including the last)
are performed and the empty byte string is returned as the only failure
outcome. -/
theorem c3_retry_behavior (transport : Nat → List Nat) (retries k : Nat) :
    ((∀ j, j < retries → transport j = []) →
      udp_request transport retries = ([], retries, retries))
    ∧ (k < retries → transport k ≠ [] → (∀ j, j < k → transport j = []) →
      udp_request transport retries = (transport k, k + 1, k)) := by
  constructor
  · intro h
    unfold udp_request
    rw [udp_loop_all_empty transport (List.range retries)
      (fun a ha => h a (List.mem_range.mp ha))]
    simp
  · intro hk hne hprev
    unfold udp_request
    have h2 : retries - k = (retries - k - 1) + 1 := by omega
    have hsplit : List.range retries
        = List.range' 0 k 1 ++ k :: List.range' (k + 1) (retries - k - 1) 1 := by
      calc List.range retries = List.range' 0 retries 1 := List.range_eq_range' retries
        _ = List.range' 0 ((retries - k) + k) 1 := by
            rw [show (retries - k) + k = retries from by omega]
        _ = List.range' 0 k 1 ++ List.range' (0 + 1 * k) (retries - k) 1 :=
            (List.range'_append 0 k (retries - k) 1).symm
        _ = List.range' 0 k 1 ++ List.range' k ((retries - k - 1) + 1) 1 := by
            rw [← h2]; norm_num
        _ = List.range' 0 k 1 ++ k :: List.range' (k + 1) (retries - k - 1) 1 := by
            rw [List.range'_succ]
    rw [hsplit]
    have hmem : ∀ j ∈ List.range' 0 k 1, transport j = [] := by
      intro j hj
      obtain ⟨i, hik, hji⟩ := List.mem_range'.mp hj
      exact hprev j (by omega)
    rw [udp_loop_first_success transport _ k _ hmem hne, List.length_range']

/-- Witness for C3 (amended): a transport succeeding on attempt index 1 returns
after 2 attempts and 1 delay; the always-empty transport yields 3 attempts and
3 delays. -/
theorem c3_witness :
    udp_request (fun a => if a = 1 then [5] else []) 3 = ([5], 2, 1)
    ∧ udp_request (fun _ => []) 3 = ([], 3, 3) := by
  constructor
  · exact (c3_retry_behavior (fun a => if a = 1 then [5] else []) 3 1).2
      (by norm_num) (by decide)
      (fun j hj => by interval_cases j; rfl)
  · exact (c3_retry_behavior (fun _ => []) 3 0).1 (fun j hj => rfl)

/-- C4 is refuted on the code: the raw input [9] is non-empty, decodes to the
empty mapping, and the update is treated as a success — the empty mapping is
published as the new snapshot (the prior snapshot is replaced) and subscribers
are notified. -/
theorem c4_counterexample :
    parse_ventoexpert_response [9] = []
    ∧ coordinator_cycle [(1, PVal.int 5)] [9] = ([], true)
    ∧ (coordinator_cycle [(1, PVal.int 5)] [9]).1 ≠ [(1, PVal.int 5)]
    ∧ (coordinator_cycle [(1, PVal.int 5)] [9]).2 ≠ false := by decide

/-- C4 (amended): only a cycle in which the orchestrator returns no data is a
failure; it leaves the prior snapshot unchanged and does not notify
subscribers with new data.  Whenever any data is returned, the decoded mapping
— even when empty — is published as the new snapshot and subscribers are
notified. -/
theorem c4_cycle_behavior (prev : List (Nat × PVal)) (raw : List Nat) :
    (raw = [] → coordinator_cycle prev raw = (prev, false))
    ∧ (raw ≠ [] → coordinator_cycle prev raw = (parse_ventoexpert_response raw, true)) := by
  constructor
  · intro h
    simp [coordinator_cycle, async_update_data, h]
  · intro h
    simp [coordinator_cycle, async_update_data, h]

/-- Witness for C4 (amended) at a concrete prior snapshot, for both the no-data
cycle and a cycle returning data. -/
theorem c4_witness :
    coordinator_cycle [(1, PVal.int 5)] [] = ([(1, PVal.int 5)], false)
    ∧ coordinator_cycle [(1, PVal.int 5)] [9] = (parse_ventoexpert_response [9], true) :=
  ⟨(c4_cycle_behavior _ []).1 rfl, (c4_cycle_behavior _ [9]).2 (by decide)⟩

/-- C9 is refuted on the code in its truncation clause: a 17-byte device id is
not truncated — the built packet differs from the packet built from the id cut
to 16 bytes, and its length exceeds the fixed-layout length. -/
theorem c9_counterexample :
    build_read_packet (List.replicate 17 65) [49, 49, 49, 49] [1]
        ≠ build_read_packet ((List.replicate 17 65).take 16) [49, 49, 49, 49] [1]
    ∧ (build_read_packet (List.replicate 17 65) [49, 49, 49, 49] [1]).length
        ≠ 2 + 1 + 1 + 16 + 1 + 4 + 1 + (data_block [1]).length + 2 := by decide

/-- C9 (amended): build_read_packet is a total (deterministic, side-effect
free) function with no error path; an over-long device id or password is
emitted in full, neither truncated nor padded, so each field occupies
max(fixed width, actual length) bytes of the output. -/
theorem c9_total_no_truncation (dv pw params : List Nat) :
    (build_read_packet dv pw params).length
      = 8 + max 16 dv.length + max 4 pw.length + (data_block params).length := by
  simp [build_read_packet, ljust, calc_checksum, List.length_append,
    List.length_replicate]
  omega

lemma build_read_packet_layout (dv pw params : List Nat) :
    build_read_packet dv pw params
      = [0xFD, 0xFD, 0x02, 0x10] ++ (dv ++ List.replicate (16 - dv.length) 0)
        ++ [0x04] ++ (pw ++ List.replicate (4 - pw.length) 0) ++ [0x01]
        ++ data_block params
        ++ calc_checksum ([0x02, 0x10] ++ (dv ++ List.replicate (16 - dv.length) 0)
            ++ [0x04] ++ (pw ++ List.replicate (4 - pw.length) 0) ++ [0x01]
            ++ data_block params) := by
  simp [build_read_packet, ljust, calc_checksum, List.append_assoc]

/-- C1: for a device id of at most 16 ASCII bytes, a password of at most 4
ASCII bytes and a non-empty parameter list, build_read_packet returns
FD FD, 02, 10, the id left-justified and zero-padded to 16 bytes, 04, the
password left-justified and zero-padded to 4 bytes, 01, the parameter block,
and a 2-byte trailer; the length is 2+1+1+16+1+4+1+len(param-block)+2 and the
trailer, low byte first, is the sum of the bytes from the type byte through
the end of the parameter block modulo 65536. -/
theorem c1_request_frame (dv pw params : List Nat)
    (hdv : dv.length ≤ 16) (hpw : pw.length ≤ 4) (hne : params ≠ [])
    (hdva : ∀ b ∈ dv, b < 128) (hpwa : ∀ b ∈ pw, b < 128) :
    ∃ t0 t1 : Nat,
      build_read_packet dv pw params
        = [0xFD, 0xFD, 0x02, 0x10] ++ (dv ++ List.replicate (16 - dv.length) 0)
          ++ [0x04] ++ (pw ++ List.replicate (4 - pw.length) 0) ++ [0x01]
          ++ data_block params ++ [t0, t1]
      ∧ (build_read_packet dv pw params).length
          = 2 + 1 + 1 + 16 + 1 + 4 + 1 + (data_block params).length + 2
      ∧ t0 < 256 ∧ t1 < 256
      ∧ t0 + 256 * t1
          = ([0x02, 0x10] ++ (dv ++ List.replicate (16 - dv.length) 0) ++ [0x04]
              ++ (pw ++ List.replicate (4 - pw.length) 0) ++ [0x01]
              ++ data_block params).sum % 65536 := by
  have hlay := build_read_packet_layout dv pw params
  refine ⟨_, _, hlay, ?_, ?_, ?_, ?_⟩
  · rw [hlay]
    simp [calc_checksum, List.length_append, List.length_replicate]
    omega
  · rw [nat_and_ff]
    exact Nat.mod_lt _ (by norm_num)
  · rw [nat_and_ff]
    exact Nat.mod_lt _ (by norm_num)
  · rw [nat_and_ffff, nat_shiftRight8, nat_and_ff, nat_and_ff]
    omega

/-- Witness for C1 at a concrete 3-byte device id, 4-byte password and 3
parameters (one of them two-byte). -/
theorem c1_witness :
    ∃ t0 t1 : Nat,
      build_read_packet [68, 69, 86] [49, 49, 49, 49] [1, 74, 183]
        = [0xFD, 0xFD, 0x02, 0x10]
          ++ ([68, 69, 86] ++ List.replicate (16 - [68, 69, 86].length) 0)
          ++ [0x04] ++ ([49, 49, 49, 49] ++ List.replicate (4 - [49, 49, 49, 49].length) 0)
          ++ [0x01] ++ data_block [1, 74, 183] ++ [t0, t1]
      ∧ (build_read_packet [68, 69, 86] [49, 49, 49, 49] [1, 74, 183]).length
          = 2 + 1 + 1 + 16 + 1 + 4 + 1 + (data_block [1, 74, 183]).length + 2
      ∧ t0 < 256 ∧ t1 < 256
      ∧ t0 + 256 * t1
          = ([0x02, 0x10] ++ ([68, 69, 86] ++ List.replicate (16 - [68, 69, 86].length) 0)
              ++ [0x04] ++ ([49, 49, 49, 49] ++ List.replicate (4 - [49, 49, 49, 49].length) 0)
              ++ [0x01] ++ data_block [1, 74, 183]).sum % 65536 :=
  c1_request_frame [68, 69, 86] [49, 49, 49, 49] [1, 74, 183]
    (by decide) (by decide) (by decide) (by decide) (by decide)

/-- C2: parsing starts immediately after the first 0x06 marker byte, and each
step reads a 1-byte parameter id followed by its value with the per-id width:
id 0x64 reads a 3-byte tuple value, ids 0x4A and 0x4B read a 2-byte
little-endian integer value (low + 256 * high), every other id reads a 1-byte
integer value.  The last two conjuncts evaluate the spec's concrete examples:
bytes 2C 01 under id 0x4A decode to 300 and bytes 01 02 03 under id 0x64
decode to the 3-tuple (1, 2, 3). -/
theorem c2_parse_decoding :
    (∀ (data : List Nat) (i : Nat), ¬(data = [] ∨ data.length < 20) →
        data.findIdx? (fun b => b = 0x06) = some i →
        parse_ventoexpert_response data = parse_loop data data.length (i + 1) [])
    ∧ (∀ (data : List Nat) (fuel pos : Nat) (acc : List (Nat × PVal)),
        (∀ b ∈ data, b < 256) → pos < data.length - 2 →
        ((data.getD pos 0 = 0x64 → pos + 4 ≤ data.length →
            parse_loop data (fuel + 1) pos acc
              = parse_loop data fuel (pos + 4)
                  (dinsert acc 0x64
                    (PVal.tup (data.getD (pos + 1) 0) (data.getD (pos + 2) 0)
                      (data.getD (pos + 3) 0))))
          ∧ ((data.getD pos 0 = 0x4A ∨ data.getD pos 0 = 0x4B) →
            parse_loop data (fuel + 1) pos acc
              = parse_loop data fuel (pos + 3)
                  (dinsert acc (data.getD pos 0)
                    (PVal.int (data.getD (pos + 1) 0 + 256 * data.getD (pos + 2) 0))))
          ∧ (data.getD pos 0 ≠ 0x64 → data.getD pos 0 ≠ 0x4A → data.getD pos 0 ≠ 0x4B →
            parse_loop data (fuel + 1) pos acc
              = parse_loop data fuel (pos + 2)
                  (dinsert acc (data.getD pos 0) (PVal.int (data.getD (pos + 1) 0))))))
    ∧ dget (parse_ventoexpert_response
        [0x06, 0x4A, 0x2C, 0x01, 0x64, 1, 2, 3, 1, 0, 2, 0, 3, 0, 5, 0, 7, 0, 0xAB, 0xCD])
        0x4A = some (PVal.int 300)
    ∧ dget (parse_ventoexpert_response
        [0x06, 0x4A, 0x2C, 0x01, 0x64, 1, 2, 3, 1, 0, 2, 0, 3, 0, 5, 0, 7, 0, 0xAB, 0xCD])
        0x64 = some (PVal.tup 1 2 3) := by
  refine ⟨?_, ?_, by decide, by decide⟩
  · intro data i hn hfind
    unfold parse_ventoexpert_response
    rw [if_neg hn, hfind]
  · intro data fuel pos acc hb hpos
    refine ⟨?_, ?_, ?_⟩
    · intro h64 hle
      simp only [parse_loop]
      rw [if_pos hpos, if_pos h64,
        if_neg (show ¬ pos + 1 + 3 > data.length from by omega), h64,
        show pos + 1 + 3 = pos + 4 from by omega]
    · intro h4AB
      have h64 : ¬ data.getD pos 0 = 0x64 := by
        rcases h4AB with h | h <;> omega
      simp only [parse_loop]
      rw [if_pos hpos, if_neg h64, if_pos h4AB,
        if_neg (show ¬ pos + 1 + 2 > data.length from by omega),
        byte_lor _ _ (getD_lt_256 hb (pos + 1)),
        show pos + 1 + 2 = pos + 3 from by omega]
    · intro h64 h4A h4B
      simp only [parse_loop]
      rw [if_pos hpos, if_neg h64, if_neg (not_or.mpr ⟨h4A, h4B⟩),
        if_neg (show ¬ pos + 1 ≥ data.length from by omega),
        show pos + 1 + 1 = pos + 2 from by omega]

/-- Witness for C2: the start rule and the three width rules applied at
concrete positions of a concrete 20-byte frame. -/
theorem c2_witness :
    parse_ventoexpert_response
        [0x06, 0x4A, 0x2C, 0x01, 0x64, 1, 2, 3, 1, 0, 2, 0, 3, 0, 5, 0, 7, 0, 0xAB, 0xCD]
      = parse_loop
        [0x06, 0x4A, 0x2C, 0x01, 0x64, 1, 2, 3, 1, 0, 2, 0, 3, 0, 5, 0, 7, 0, 0xAB, 0xCD]
        20 1 []
    ∧ parse_loop
        [0x06, 0x4A, 0x2C, 0x01, 0x64, 1, 2, 3, 1, 0, 2, 0, 3, 0, 5, 0, 7, 0, 0xAB, 0xCD]
        6 4 []
      = parse_loop
        [0x06, 0x4A, 0x2C, 0x01, 0x64, 1, 2, 3, 1, 0, 2, 0, 3, 0, 5, 0, 7, 0, 0xAB, 0xCD]
        5 8 (dinsert [] 0x64 (PVal.tup 1 2 3))
    ∧ parse_loop
        [0x06, 0x4A, 0x2C, 0x01, 0x64, 1, 2, 3, 1, 0, 2, 0, 3, 0, 5, 0, 7, 0, 0xAB, 0xCD]
        10 1 []
      = parse_loop
        [0x06, 0x4A, 0x2C, 0x01, 0x64, 1, 2, 3, 1, 0, 2, 0, 3, 0, 5, 0, 7, 0, 0xAB, 0xCD]
        9 4 (dinsert [] 0x4A (PVal.int 300))
    ∧ parse_loop
        [0x06, 0x4A, 0x2C, 0x01, 0x64, 1, 2, 3, 1, 0, 2, 0, 3, 0, 5, 0, 7, 0, 0xAB, 0xCD]
        12 8 []
      = parse_loop
        [0x06, 0x4A, 0x2C, 0x01, 0x64, 1, 2, 3, 1, 0, 2, 0, 3, 0, 5, 0, 7, 0, 0xAB, 0xCD]
        11 10 (dinsert [] 1 (PVal.int 0)) :=
  ⟨c2_parse_decoding.1 _ 0 (by decide) (by decide),
   (c2_parse_decoding.2.1 _ 5 4 [] (by decide) (by decide)).1 (by decide) (by decide),
   (c2_parse_decoding.2.1 _ 9 1 [] (by decide) (by decide)).2.1 (Or.inl (by decide)),
   (c2_parse_decoding.2.1 _ 11 8 [] (by decide) (by decide)).2.2
     (by decide) (by decide) (by decide)⟩

lemma parse_loop_shape {data : List Nat} (hb : ∀ b ∈ data, b < 256) :
    ∀ (fuel pos : Nat) (acc : List (Nat × PVal)), (∀ kv ∈ acc, well_shaped kv) →
      ∀ kv ∈ parse_loop data fuel pos acc, well_shaped kv := by
  intro fuel
  induction fuel with
  | zero =>
    intro pos acc hacc
    simpa [parse_loop] using hacc
  | succ f ih =>
    intro pos acc hacc
    simp only [parse_loop]
    split_ifs with hc h64 hb3 h4AB hb2 hb1
    · exact hacc
    · apply ih _ _ (dinsert_forall _ _ ?_ _ hacc)
      simp only [well_shaped]
      refine ⟨getD_lt_256 hb pos, fun _ => ⟨_, _, _, rfl,
        getD_lt_256 hb _, getD_lt_256 hb _, getD_lt_256 hb _⟩, fun hor => ?_,
        fun hne _ _ => absurd h64 hne⟩
      rcases hor with h | h <;> omega
    · exact hacc
    · apply ih _ _ (dinsert_forall _ _ ?_ _ hacc)
      simp only [well_shaped]
      refine ⟨getD_lt_256 hb pos, fun hk => ?_, fun _ => ?_, fun _ h4A h4B => ?_⟩
      · exact absurd hk h64
      · refine ⟨_, rfl, ?_⟩
        rw [byte_lor _ _ (getD_lt_256 hb (pos + 1))]
        have h1 := getD_lt_256 hb (pos + 1)
        have h2 := getD_lt_256 hb (pos + 2)
        omega
      · rcases h4AB with h | h
        · exact absurd h h4A
        · exact absurd h h4B
    · exact hacc
    · apply ih _ _ (dinsert_forall _ _ ?_ _ hacc)
      simp only [well_shaped]
      refine ⟨getD_lt_256 hb pos, fun hk => absurd hk h64, fun hor => absurd hor h4AB,
        fun _ _ _ => ⟨_, rfl, getD_lt_256 hb _⟩⟩
    · exact hacc

/-- C10: parse_ventoexpert_response is total (a function on arbitrary byte
sequences) and, on any input whose entries are bytes, every key of the result
is a single-byte integer below 256 and every value has the shape and range
dictated by its key: a 3-tuple of bytes for id 0x64, an integer below 65536
for ids 0x4A and 0x4B, and an integer below 256 for every other id. -/
theorem c10_parse_total_shapes (data : List Nat) (hb : ∀ b ∈ data, b < 256) :
    ∀ kv ∈ parse_ventoexpert_response data, well_shaped kv := by
  unfold parse_ventoexpert_response
  by_cases hs : data = [] ∨ data.length < 20
  · rw [if_pos hs]
    intro kv hkv
    simp at hkv
  · rw [if_neg hs]
    cases hfind : data.findIdx? (fun b => b = 0x06) with
    | none =>
      intro kv hkv
      simp at hkv
    | some i =>
      exact parse_loop_shape hb _ _ [] (by simp)

/-- Witness for C10: the shape of two entries decoded from a concrete frame
containing a 2-byte and a 3-byte parameter. -/
theorem c10_witness :
    well_shaped (0x4A, PVal.int 300) ∧ well_shaped (0x64, PVal.tup 1 2 3) :=
  ⟨c10_parse_total_shapes
      [0x06, 0x4A, 0x2C, 0x01, 0x64, 1, 2, 3, 1, 0, 2, 0, 3, 0, 5, 0, 7, 0, 0xAB, 0xCD]
      (by decide) (0x4A, PVal.int 300) (by decide),
   c10_parse_total_shapes
      [0x06, 0x4A, 0x2C, 0x01, 0x64, 1, 2, 3, 1, 0, 2, 0, 3, 0, 5, 0, 7, 0, 0xAB, 0xCD]
      (by decide) (0x64, PVal.tup 1 2 3) (by decide)⟩

/-- C8 is refuted on the code: two 20-byte responses that agree on their first
18 bytes and differ only in the final checksum byte parse differently — a
2-byte parameter id sitting at position length - 3 consumes the two trailing
checksum bytes as its little-endian value (0xAA + 256 * 0xBB here). -/
theorem c8_counterexample :
    List.take 18 [6, 1, 0, 2, 0, 3, 0, 5, 0, 7, 0, 8, 0, 9, 0, 10, 0, 0x4A, 0xAA, 0xBB]
      = List.take 18 [6, 1, 0, 2, 0, 3, 0, 5, 0, 7, 0, 8, 0, 9, 0, 10, 0, 0x4A, 0xAA, 0xBC]
    ∧ parse_ventoexpert_response
        [6, 1, 0, 2, 0, 3, 0, 5, 0, 7, 0, 8, 0, 9, 0, 10, 0, 0x4A, 0xAA, 0xBB]
      ≠ parse_ventoexpert_response
        [6, 1, 0, 2, 0, 3, 0, 5, 0, 7, 0, 8, 0, 9, 0, 10, 0, 0x4A, 0xAA, 0xBC]
    ∧ dget (parse_ventoexpert_response
        [6, 1, 0, 2, 0, 3, 0, 5, 0, 7, 0, 8, 0, 9, 0, 10, 0, 0x4A, 0xAA, 0xBB]) 0x4A
      = some (PVal.int (0xAA + 256 * 0xBB)) := by decide

/-- C8 (amended): the parsing loop returns its accumulator unchanged as soon as
the position reaches length - 2, so a parameter id is never read from the
trailing 2-byte checksum region, and every value byte is read in bounds; but a
2- or 3-byte value whose id sits just before the trailing region does consume
checksum bytes as value data.  The instrumented loop parse_loop_tr records the
id-read and value-read positions and agrees with parse_loop on the result. -/
theorem c8_loop_read_bounds (data : List Nat) (fuel pos : Nat)
    (acc : List (Nat × PVal)) :
    (pos ≥ data.length - 2 → parse_loop data fuel pos acc = acc)
    ∧ (parse_loop_tr data fuel pos acc).1 = parse_loop data fuel pos acc
    ∧ (∀ i ∈ (parse_loop_tr data fuel pos acc).2.1, i < data.length - 2)
    ∧ (∀ i ∈ (parse_loop_tr data fuel pos acc).2.2, i < data.length) := by
  induction fuel generalizing pos acc with
  | zero =>
    refine ⟨fun _ => rfl, rfl, ?_, ?_⟩
    · intro i hi
      simp [parse_loop_tr] at hi
    · intro i hi
      simp [parse_loop_tr] at hi
  | succ f ih =>
    refine ⟨?_, ?_, ?_, ?_⟩
    · intro hge
      simp only [parse_loop]
      rw [if_neg (by omega)]
    · simp only [parse_loop, parse_loop_tr]
      split_ifs with hc h64 hb3 h4AB hb2 hb1
      · rfl
      · exact (ih _ _).2.1
      · rfl
      · exact (ih _ _).2.1
      · rfl
      · exact (ih _ _).2.1
      · rfl
    · simp only [parse_loop_tr]
      split_ifs with hc h64 hb3 h4AB hb2 hb1
      · intro i hi
        simp at hi
        omega
      · intro i hi
        rcases List.mem_cons.mp hi with h | h
        · omega
        · exact (ih _ _).2.2.1 i h
      · intro i hi
        simp at hi
        omega
      · intro i hi
        rcases List.mem_cons.mp hi with h | h
        · omega
        · exact (ih _ _).2.2.1 i h
      · intro i hi
        simp at hi
        omega
      · intro i hi
        rcases List.mem_cons.mp hi with h | h
        · omega
        · exact (ih _ _).2.2.1 i h
      · intro i hi
        simp at hi
    · simp only [parse_loop_tr]
      split_ifs with hc h64 hb3 h4AB hb2 hb1
      · intro i hi
        simp at hi
      · intro i hi
        rcases List.mem_cons.mp hi with h | h
        · omega
        · rcases List.mem_cons.mp h with h2 | h2
          · omega
          · rcases List.mem_cons.mp h2 with h3 | h3
            · omega
            · exact (ih _ _).2.2.2 i h3
      · intro i hi
        simp at hi
      · intro i hi
        rcases List.mem_cons.mp hi with h | h
        · omega
        · rcases List.mem_cons.mp h with h2 | h2
          · omega
          · exact (ih _ _).2.2.2 i h2
      · intro i hi
        simp at hi
      · intro i hi
        rcases List.mem_cons.mp hi with h | h
        · omega
        · exact (ih _ _).2.2.2 i h
      · intro i hi
        simp at hi

/-- Witness for C8 (amended) on a concrete 20-byte frame: the loop stops at
position 18 = length - 2, the instrumented loop agrees with the plain one, id
position 17 is below length - 2, and value position 19 (a consumed checksum
byte) is still within the data. -/
theorem c8_witness :
    parse_loop [6, 1, 0, 2, 0, 3, 0, 5, 0, 7, 0, 8, 0, 9, 0, 10, 0, 0x4A, 0xAA, 0xBB]
        20 18 [] = []
    ∧ (parse_loop_tr [6, 1, 0, 2, 0, 3, 0, 5, 0, 7, 0, 8, 0, 9, 0, 10, 0, 0x4A, 0xAA, 0xBB]
        20 1 []).1
      = parse_loop [6, 1, 0, 2, 0, 3, 0, 5, 0, 7, 0, 8, 0, 9, 0, 10, 0, 0x4A, 0xAA, 0xBB]
        20 1 []
    ∧ 17 < ([6, 1, 0, 2, 0, 3, 0, 5, 0, 7, 0, 8, 0, 9, 0, 10, 0, 0x4A, 0xAA, 0xBB] :
        List Nat).length - 2
    ∧ 19 < ([6, 1, 0, 2, 0, 3, 0, 5, 0, 7, 0, 8, 0, 9, 0, 10, 0, 0x4A, 0xAA, 0xBB] :
        List Nat).length :=
  ⟨(c8_loop_read_bounds _ 20 18 []).1 (by decide),
   (c8_loop_read_bounds _ 20 1 []).2.1,
   (c8_loop_read_bounds _ 20 1 []).2.2.1 17 (by decide),
   (c8_loop_read_bounds _ 20 1 []).2.2.2 19 (by decide)⟩
